import Mathlib

/-!
# Verification of the go-gofermart loyalty service

Shallow embedding, in Lean 4, of the parts of the `vkupriya/go-gofermart`
repository that the specification's claims are about:

* the Luhn order-number validator (`internal/gophermart/helpers/luhn.go`);
* the order-admission and withdrawal HTTP handlers
  (`internal/gophermart/server/handlers/handlers.go`);
* the ledger operations of the Postgres storage layer
  (`internal/gophermart/storage`): `OrderGet`, `GetUnprocessedOrders`,
  `AccrualWithdraw`, `UserAddAccrual`, `UpdateOrder`;
* the worker logic of the accrual service poller
  (`internal/gophermart/service/service.go`): `OrderUpdate` and the
  handling of HTTP 429 responses in `getAccrualWorker`;
* the configuration resolution in `internal/gophermart/config/config.go`.

Go `int64` arithmetic is modelled by `Int` with truncated division
(`Int.tdiv`) and truncated remainder (`Int.tmod`), which agree with Go's
`/` and `%` on `int64`.  Monetary amounts (Go `float32`) are modelled by
exact rationals `ℚ`; the only operations performed on them in the source
are additions, subtractions and comparisons, and the claims are about
signs and guards, which the exact model reflects.
-/

namespace Gofermart

/-! ## Luhn validator (`internal/gophermart/helpers/luhn.go`)

Go source:

```
func ValidOrder(number int64) bool {
    return (number%10 + checksumLuhn(number/10)) % 10 == 0
}

func checksumLuhn(number int64) int64 {
    var luhn int64
    for i := 0; number > 0; i++ {
        cur := number % 10
        if i%2 == 0 {
            cur *= 2
            if cur > 9 {
                cur = cur%10 + cur/10
            }
        }
        luhn += cur
        number /= 10
    }
    return luhn % 10
}
```

The loop is embedded with explicit fuel so that the definition is
structurally recursive (hence kernel-computable).  Each iteration with
`0 < number` replaces `number` by `number / 10 < number`, so
`number.toNat` iterations always suffice; when `number ≤ 0` the loop
body never runs, and `(number ≤ 0).toNat = 0` fuel likewise returns the
accumulator `0`, so the fuelled function agrees with the Go loop on
every `int64` input. -/

/-- The body/recursion of the `for` loop in `checksumLuhn`, with fuel.
The accumulated sum is returned; `i` is the loop counter. -/
def checksumLoop : ℕ → Int → ℕ → Int
  | 0, _, _ => 0
  | fuel + 1, number, i =>
    if 0 < number then
      let cur := number.tmod 10
      let cur :=
        if i % 2 = 0 then
          let c := cur * 2
          if 9 < c then c.tmod 10 + c.tdiv 10 else c
        else cur
      cur + checksumLoop fuel (number.tdiv 10) (i + 1)
    else 0

/-- `checksumLuhn` from `luhn.go`: runs the loop, then reduces mod 10. -/
def checksumLuhn (number : Int) : Int :=
  (checksumLoop number.toNat number 0).tmod 10

/-- `ValidOrder` from `luhn.go`. -/
def ValidOrder (number : Int) : Bool :=
  (number.tmod 10 + checksumLuhn (number.tdiv 10)).tmod 10 = 0

/-! ### Reference Luhn, from the specification's words

"Doubles every second digit from the right; if a doubled digit exceeds
9, sums its decimal digits.  The number is valid iff the total sum is
divisible by 10."  Digits are taken little-endian (`Nat.digits 10`), so
"every second digit from the right" is the digits at odd indices. -/

/-- The value contributed by a doubled digit, per the spec: the doubled
digit, replaced by the sum of its decimal digits when it exceeds 9. -/
def luhnDouble (d : ℕ) : ℕ :=
  if 9 < 2 * d then (Nat.digits 10 (2 * d)).sum else 2 * d

/-- Total Luhn sum of a little-endian digit list; the flag records
whether the current (leftmost) digit is one of the doubled positions. -/
def luhnSum : List ℕ → Bool → ℕ
  | [], _ => 0
  | d :: ds, false => d + luhnSum ds true
  | d :: ds, true => luhnDouble d + luhnSum ds false

/-- Reference Luhn validity of a natural number, per the spec: the
rightmost digit is not doubled, every second digit from the right is. -/
def luhnSpecValid (n : ℕ) : Bool :=
  luhnSum (Nat.digits 10 n) false % 10 = 0

/-- For a decimal digit `d`, the spec's doubled-digit value coincides
with the arithmetic `cur%10 + cur/10` correction in the Go loop body. -/
lemma luhnDouble_eq_code (d : ℕ) (hd : d < 10) :
    (luhnDouble d : Int)
      = (if 9 < (d : Int) * 2 then ((d : Int) * 2).tmod 10 + ((d : Int) * 2).tdiv 10
         else (d : Int) * 2) := by
  interval_cases d <;> simp [luhnDouble, Nat.digits_def'] <;> rfl

/-- The fuelled Go loop computes the spec's Luhn sum of the decimal
digits, for any fuel that dominates the argument. -/
lemma checksumLoop_eq_luhnSum (fuel : ℕ) :
    ∀ (m i : ℕ), m ≤ fuel →
      checksumLoop fuel (m : Int) i
        = (luhnSum (Nat.digits 10 m) (decide (i % 2 = 0)) : ℤ) := by
  induction fuel with
  | zero =>
    intro m i h
    interval_cases m
    simp [checksumLoop, luhnSum]
  | succ fuel ih =>
    intro m i h
    rcases Nat.eq_zero_or_pos m with hm | hm
    · subst hm
      simp [checksumLoop, luhnSum]
    · have hdig : Nat.digits 10 m = m % 10 :: Nat.digits 10 (m / 10) :=
        Nat.digits_def' (by norm_num) hm
      have hfuel : m / 10 ≤ fuel := by
        have := Nat.div_lt_self hm (by norm_num : 1 < 10)
        omega
      have hrec := ih (m / 10) (i + 1) hfuel
      have hmod : ((m : ℕ) : Int).tmod 10 = ((m % 10 : ℕ) : Int) := rfl
      have hdiv : ((m : ℕ) : Int).tdiv 10 = ((m / 10 : ℕ) : Int) := rfl
      rw [checksumLoop, if_pos (by exact_mod_cast hm), hmod, hdiv, hrec, hdig]
      rcases Nat.even_or_odd i with hi | hi
      · have h2 : i % 2 = 0 := Nat.even_iff.mp hi
        have h3 : (i + 1) % 2 = 1 := by omega
        rw [h2, h3]
        norm_num [luhnSum]
        have h10 : ((m : ℤ) % 10) = ((m % 10 : ℕ) : ℤ) := by omega
        rw [h10, luhnDouble_eq_code (m % 10) (Nat.mod_lt _ (by norm_num))]
      · have h2 : i % 2 = 1 := Nat.odd_iff.mp hi
        have h3 : (i + 1) % 2 = 0 := by omega
        rw [h2, h3]
        norm_num [luhnSum]

/-- On non-negative inputs, `ValidOrder` agrees with the reference Luhn
check written from the spec's words. -/
lemma ValidOrder_eq_spec (n : ℕ) : ValidOrder (n : Int) = luhnSpecValid n := by
  have hmod : ((n : ℕ) : Int).tmod 10 = ((n % 10 : ℕ) : Int) := rfl
  have hdiv : ((n : ℕ) : Int).tdiv 10 = ((n / 10 : ℕ) : Int) := rfl
  have htn : ((n / 10 : ℕ) : Int).toNat = n / 10 := rfl
  rw [ValidOrder, checksumLuhn, hmod, hdiv, htn,
    checksumLoop_eq_luhnSum (n / 10) (n / 10) 0 le_rfl]
  rcases Nat.eq_zero_or_pos n with hn | hn
  · subst hn
    simp [luhnSpecValid, luhnSum]
  · have hdig : Nat.digits 10 n = n % 10 :: Nat.digits 10 (n / 10) :=
      Nat.digits_def' (by norm_num) hn
    rw [luhnSpecValid, hdig]
    norm_num [luhnSum]
    have hS : (((luhnSum (Nat.digits 10 (n / 10)) true : ℕ) : Int)).tmod 10
        = ((luhnSum (Nat.digits 10 (n / 10)) true % 10 : ℕ) : Int) := rfl
    rw [hS]
    rw [Int.tmod_eq_emod (by omega) (by norm_num)]
    omega

/-! ## Request-body parsing

Both handlers parse the order number with
`strconv.ParseInt(oid, 10, 64)`.  For base 10 this accepts an optional
leading `+` or `-` sign followed by one or more ASCII decimal digits,
and fails (`ErrSyntax`) on anything else and (`ErrRange`) when the
value does not fit in a signed 64-bit integer; the handlers treat any
error as "invalid order number". -/

/-- Model of Go `strconv.ParseInt(s, 10, 64)`: `none` is an error. -/
def parseInt64 (s : String) : Option Int :=
  match s.data with
  | [] => none
  | c :: rest =>
    let signDigits : Bool × List Char :=
      if c = '-' then (true, rest)
      else if c = '+' then (false, rest)
      else (false, c :: rest)
    let neg := signDigits.1
    let ds := signDigits.2
    if ds.isEmpty then none
    else if ds.all Char.isDigit then
      let v : ℕ := ds.foldl (fun acc d => acc * 10 + (d.toNat - '0'.toNat)) 0
      let x : Int := if neg then -(v : Int) else (v : Int)
      if x < -(2 ^ 63) ∨ 2 ^ 63 - 1 < x then none else some x
    else none

/-! ## Data model (`internal/gophermart/models/models.go`)

`models.Order` carries `UserID`, `Number`, `Status`, `Accrual` and an
`Uploaded` timestamp; the timestamp participates in none of the claims
(only in sort orders that are not claimed here) and is omitted.
Monetary `float32` fields are modelled as `ℚ`. -/

/-- A row of the `orders` table / `models.Order` (timestamp omitted). -/
structure Order where
  userID : String
  number : String
  status : String
  accrual : ℚ
deriving DecidableEq

/-- A row of the `withdrawals` table / `models.Withdrawal`
(timestamp omitted). -/
structure Withdrawal where
  userID : String
  number : String
  sum : ℚ
deriving DecidableEq

/-! ## Ledger reads (`storage.go`)

`OrderGet` runs `SELECT * FROM orders WHERE number=$1`; `number` is the
primary key, so at most one row matches.  On `pgx.ErrNoRows` the Go
function returns the zero `models.Order` (blank `UserID`) and a `nil`
error. -/

/-- `PostgresDB.OrderGet`: the row whose `number` matches, or the zero
order when the row is missing.  The table is a list of rows; the
primary key makes the first match the only match. -/
def orderGet (tbl : List Order) (oid : String) : Order :=
  match tbl.find? (fun o => o.number == oid) with
  | some o => o
  | none => ⟨"", "", "", 0⟩

/-- `PostgresDB.OrderAdd`: inserts `(userid, oid, NEW, 0)`; the unique
constraint on `number` rejects a duplicate (`none` models the
`ConflictAlreadyExists` error). -/
def orderAddStore (tbl : List Order) (userid oid : String) : Option (List Order) :=
  if tbl.any (fun o => o.number == oid) then none
  else some (tbl ++ [⟨userid, oid, "NEW", 0⟩])

/-! ## Order admission handler (`handlers.go`, `OrderAdd`)

The handler parses the body, Luhn-validates the parsed number, pre-reads
the order by the *raw body string*, distinguishes same-user (200) from
cross-user (409) duplicates, and otherwise inserts (202), surfacing 409
when the insert itself reports a duplicate. -/

/-- `GophermartHandler.OrderAdd`: returns the HTTP status written and
the orders table after the request. -/
def orderAddHandler (tbl : List Order) (ctxUser : String) (body : String) :
    ℕ × List Order :=
  match parseInt64 body with
  | none => (422, tbl)
  | some n =>
    if ¬ ValidOrder n then (422, tbl)
    else
      let order := orderGet tbl body
      if order.userID ≠ "" then
        if order.userID = ctxUser then (200, tbl) else (409, tbl)
      else
        match orderAddStore tbl ctxUser body with
        | none => (409, tbl)
        | some tbl2 => (202, tbl2)

/-! ## Withdrawal handler guard (`handlers.go`, `AccrualWithdraw`)

After decoding the body the handler Luhn-validates `w.Number` exactly as
`OrderAdd` does, then reads the caller's user row and rejects with 402
when `user.Accrual == 0 || w.Sum > user.Accrual`; only then does it call
the ledger withdrawal. -/

/-- The HTTP status produced by `GophermartHandler.AccrualWithdraw`
given the caller's current balance, assuming the ledger transaction
itself succeeds (its failure is modelled in `accrualWithdrawTx`). -/
def accrualWithdrawHandlerStatus (balance : ℚ) (number : String) (sum : ℚ) : ℕ :=
  match parseInt64 number with
  | none => 422
  | some n =>
    if ¬ ValidOrder n then 422
    else if balance = 0 ∨ balance < sum then 402
    else 200

/-! ## Ledger withdrawal transaction (`storage.go`, `AccrualWithdraw`)

The Go function opens a transaction, executes
`UPDATE users SET accrual = accrual - $1 WHERE userid=$2`, then
`INSERT INTO withdrawals ...`, and commits; each statement error (and a
commit failure) leaves the database at the pre-transaction state.  The
oracle booleans `e1`, `e2`, `ec` say whether the debit statement, the
insert statement, or the commit fails. -/

/-- State owned by the ledger for the withdrawal claims: per-user
balances and the `withdrawals` table. -/
structure LedgerState where
  balances : String → ℚ
  withdrawals : List Withdrawal

/-- Pointwise update of a balance map. -/
def updBal (bal : String → ℚ) (u : String) (x : ℚ) : String → ℚ :=
  fun v => if v = u then x else bal v

/-- `PostgresDB.AccrualWithdraw`: returns whether an error was reported
and the committed database state (the input state when rolled back). -/
def accrualWithdrawTx (st : LedgerState) (w : Withdrawal) (e1 e2 ec : Bool) :
    Bool × LedgerState :=
  if e1 then (true, st)
  else
    let tx1 : LedgerState :=
      { st with balances := updBal st.balances w.userID (st.balances w.userID - w.sum) }
    if e2 then (true, st)
    else
      let tx2 : LedgerState := { tx1 with withdrawals := tx1.withdrawals ++ [w] }
      if ec then (true, st)
      else (false, tx2)

/-! ## Claiming unprocessed orders (`part_001`, `GetUnprocessedOrders`)

One SQL statement:
`UPDATE orders SET status='PROCESSING'
 WHERE (status='NEW' OR status='PROCESSING') RETURNING *`. -/

/-- Whether a row is claimed by `GetUnprocessedOrders`. -/
def claimable (o : Order) : Bool :=
  o.status == "NEW" || o.status == "PROCESSING"

/-- `PostgresDB.GetUnprocessedOrders`: the updated table and the rows
returned by `RETURNING *` (post-update values of the affected rows). -/
def claimUnprocessed (tbl : List Order) : List Order × List Order :=
  (tbl.map fun o => if claimable o then { o with status := "PROCESSING" } else o,
   (tbl.filter claimable).map fun o => { o with status := "PROCESSING" })

/-! ## Applying an accrual result (`service.go`, `OrderUpdate`)

```
func (g *GophermartService) OrderUpdate(order *models.Order) error {
    if err := g.store.UpdateOrder(g.config, order); err != nil { return ... }
    if order.Accrual != 0 {
        if err := g.store.UserAddAccrual(g.config, order); err != nil { return ... }
    }
    return nil
}
``` -/

/-- A call made by `OrderUpdate` into the ledger. -/
inductive LedgerCall
  | updateOrder (o : Order)
  | userAddAccrual (o : Order)
deriving DecidableEq

/-- `GophermartService.OrderUpdate`: the sequence of ledger calls it
makes and whether it returns an error, given whether the
`store.UpdateOrder` call fails (`updateErr`). -/
def orderUpdateCalls (o : Order) (updateErr : Bool) : List LedgerCall × Bool :=
  if updateErr then ([.updateOrder o], true)
  else if o.accrual ≠ 0 then ([.updateOrder o, .userAddAccrual o], false)
  else ([.updateOrder o], false)

/-! ## Worker reaction to HTTP 429 (`service.go`, `getAccrualWorker`)

```
if resp.StatusCode() == http.StatusTooManyRequests {
    r := resp.Header().Get("Retry-After")   // "" when absent
    if r != "" {
        retryAfterInt, err := strconv.ParseInt(r, 10, 64)
        if err != nil { log; break }        // abandons the order
        retryAfter = time.Duration(retryAfterInt) * time.Second
    } else {
        retryAfter = g.config.AccrualRetryAfter
    }
    rf.Store(true); time.Sleep(retryAfter); rf.Store(false); continue
}
``` -/

/-- An observable step the worker takes after a 429 response. -/
inductive WorkerAct
  | setFlag
  | sleepSec (seconds : Int)
  | clearFlag
  | retryOrder
  | abandonOrder
deriving DecidableEq

/-- The action sequence of `getAccrualWorker` on a 429 response, as a
function of the `Retry-After` header value (`""` when the header is
absent, as returned by `resp.Header().Get`) and the configured default
`AccrualRetryAfter` in seconds. -/
def handle429 (retryAfterHeader : String) (cfgRetryAfterSec : Int) : List WorkerAct :=
  if retryAfterHeader ≠ "" then
    match parseInt64 retryAfterHeader with
    | none => [.abandonOrder]
    | some k => [.setFlag, .sleepSec k, .clearFlag, .retryOrder]
  else [.setFlag, .sleepSec cfgRetryAfterSec, .clearFlag, .retryOrder]

/-! ## Committed operations on user balances (for the P3 invariant)

The committed operations of the system that touch `users.accrual` are:

* order admission (`OrderAdd`): inserts an order row, never a balance;
* accrual application (`OrderUpdate` → `UserAddAccrual`): when
  `order.Accrual != 0`, runs
  `UPDATE users SET accrual = accrual + $1 WHERE userid=$2`;
* withdrawal (`AccrualWithdraw` handler followed by the ledger
  transaction): the handler rejects with 402 when
  `user.Accrual == 0 || w.Sum > user.Accrual`, otherwise the ledger
  runs `UPDATE users SET accrual = accrual - $1 WHERE userid=$2`.

A successful withdrawal transaction is taken here; a rolled-back one
leaves every balance unchanged (`accrualWithdrawTx`). -/

/-- A committed operation of the system, as seen by user balances. -/
inductive SysOp
  | orderAdmit (userID number : String)
  | accrualApply (o : Order)
  | withdrawReq (w : Withdrawal)

/-- Effect of one committed operation on the balance map. -/
def sysStep (bal : String → ℚ) : SysOp → (String → ℚ)
  | .orderAdmit _ _ => bal
  | .accrualApply o =>
      if o.accrual ≠ 0 then updBal bal o.userID (bal o.userID + o.accrual) else bal
  | .withdrawReq w =>
      if bal w.userID = 0 ∨ bal w.userID < w.sum then bal
      else updBal bal w.userID (bal w.userID - w.sum)

/-- Balances after a sequence of committed operations. -/
def sysRun (bal : String → ℚ) (ops : List SysOp) : String → ℚ :=
  ops.foldl sysStep bal

/-- The data-model constraint (spec §3) that an applied accrual award is
a non-negative amount. -/
def opAccrualNonneg : SysOp → Prop
  | .accrualApply o => 0 ≤ o.accrual
  | _ => True

/-! ## Configuration resolution (`config/config.go`, `NewConfig`)

For each key the CLI flag is parsed first; the environment variable is
consulted *only when the flag still holds its default value* (the
built-in default for `-a`/`-r`/`-w`, the empty string for `-d`/`-j`),
with the viper config file as a further fallback.  `none` models a
`NewConfig` error. -/

/-- Resolution of `Address` from `-a` / `RUN_ADDRESS` / viper
(`defaultAddress = "localhost:8080"`). -/
def resolveAddress (a : String) (env : Option String) (viperVal : String) : String :=
  if a = "localhost:8080" then
    match env with
    | some e => e
    | none => if viperVal ≠ "" then viperVal else a
  else a

/-- Whether an address value already carries a URL scheme
(`strings.Contains(*r, "://")`). -/
def hasScheme (s : String) : Bool :=
  decide ([':', '/', '/'] <:+: s.data)

/-- Resolution of `AccrualAddress` from `-r` / `ACCRUAL_SYSTEM_ADDRESS`
/ viper (`defaultAccrualURL = "http://localhost:8082"`), including the
`http://` prefix added when the scheme is missing. -/
def resolveAccrualAddress (r : String) (env : Option String) (viperVal : String) : String :=
  let r1 :=
    if r = "http://localhost:8082" then
      match env with
      | some e => e
      | none => if viperVal ≠ "" then viperVal else r
    else r
  if ¬ hasScheme r1 then "http://" ++ r1 else r1

/-- Resolution of `AccrualWorkers` from `-w` / `ACCRUAL_WORKERS` / viper
(`defaultAccrualWorkers = 3`); `none` models the error returned when
the environment value does not parse as an integer. -/
def resolveWorkers (w : Int) (env : Option String) (viperVal : Int) : Option Int :=
  if w = 3 then
    match env with
    | some e =>
      match parseInt64 e with
      | none => none
      | some k => some k
    | none => if viperVal ≠ 0 then some viperVal else some w
  else some w

/-- Resolution of `PostgresDSN` from `-d` / `DATABASE_URI`; `none`
models the "postgreSQL DSN is missing" error. -/
def resolveDSN (d : String) (env : Option String) : Option String :=
  if d = "" then
    match env with
    | some e => some e
    | none => none
  else some d

/-- Resolution of `KeyJWT` from `-j` / `JWT` / viper; `none` models the
"jwt secret key is missing" error. -/
def resolveJWT (j : String) (env : Option String) (viperVal : String) : Option String :=
  if j = "" then
    match env with
    | some e => some e
    | none => if viperVal ≠ "" then some viperVal else none
  else some j

/-! ## Helper lemmas about `orderGet` -/

/-- When no row carries the requested number, `OrderGet` returns the
zero order (blank `userID`) and no error. -/
lemma orderGet_of_not_mem (tbl : List Order) (oid : String)
    (h : ∀ o ∈ tbl, o.number ≠ oid) : orderGet tbl oid = ⟨"", "", "", 0⟩ := by
  have hf : tbl.find? (fun o => o.number == oid) = none := by
    rw [List.find?_eq_none]
    intro x hx
    simp [h x hx]
  simp [orderGet, hf]

/-- When the requested number is present (numbers are pairwise distinct,
as the primary key guarantees), `OrderGet` returns that row. -/
lemma orderGet_of_mem (tbl : List Order) (oid : String) (o : Order)
    (hp : List.Pairwise (fun a b => a.number ≠ b.number) tbl)
    (ho : o ∈ tbl) (hnum : o.number = oid) : orderGet tbl oid = o := by
  induction tbl with
  | nil => cases ho
  | cons a t ih =>
    rcases List.mem_cons.mp ho with rfl | hmem
    · have hpa : (fun q : Order => q.number == oid) o = true := by simp [hnum]
      unfold orderGet
      rw [@List.find?_cons_of_pos Order (fun q => q.number == oid) o t hpa]
    · have hane : a.number ≠ o.number := (List.pairwise_cons.mp hp).1 o hmem
      have hpa : ¬ ((a.number == oid) = true) := by
        simp only [beq_iff_eq]
        intro hEq
        exact hane (hEq.trans hnum.symm)
      have hpa2 : ¬ ((fun q : Order => q.number == oid) a = true) := hpa
      have hskip : List.find? (fun q : Order => q.number == oid) (a :: t)
          = List.find? (fun q : Order => q.number == oid) t :=
        @List.find?_cons_of_neg Order (fun q => q.number == oid) a t hpa2
      have ht := ih (List.pairwise_cons.mp hp).2 hmem
      unfold orderGet at ht ⊢
      rw [hskip]
      exact ht

/-- After inserting the order for `body` at the end of a table that did
not contain it, `OrderGet body` finds exactly the inserted row. -/
lemma orderGet_append_inserted (tbl : List Order) (u body : String)
    (h : ∀ o ∈ tbl, o.number ≠ body) :
    orderGet (tbl ++ [⟨u, body, "NEW", 0⟩]) body = ⟨u, body, "NEW", 0⟩ := by
  have hf : tbl.find? (fun o => o.number == body) = none := by
    rw [List.find?_eq_none]
    intro x hx
    simp [h x hx]
  simp [orderGet, List.find?_append, hf]

/-! ## Helper lemmas for the balance invariant -/

/-- One committed operation preserves non-negativity of all balances,
provided an applied accrual is non-negative (data model, spec §3). -/
lemma sysStep_nonneg (bal : String → ℚ) (op : SysOp)
    (h0 : ∀ u, 0 ≤ bal u) (hop : opAccrualNonneg op) :
    ∀ u, 0 ≤ sysStep bal op u := by
  intro u
  cases op with
  | orderAdmit a b => exact h0 u
  | accrualApply o =>
    by_cases h : o.accrual = 0
    · simp only [sysStep, h, ne_eq, not_true_eq_false, if_false]
      exact h0 u
    · have hnn : 0 ≤ o.accrual := hop
      by_cases hu : u = o.userID
      · simpa [sysStep, updBal, h, hu] using add_nonneg (h0 o.userID) hnn
      · simpa [sysStep, updBal, h, hu] using h0 u
  | withdrawReq w =>
    simp only [sysStep]
    split
    · exact h0 u
    · rename_i hg
      push_neg at hg
      by_cases hu : u = w.userID
      · simpa [updBal, hu] using (by linarith [hg.2] : (0 : ℚ) ≤ bal w.userID - w.sum)
      · simpa [updBal, hu] using h0 u

/-- Non-negativity of all balances is preserved along any sequence of
committed operations whose accrual applications are non-negative. -/
lemma sysRun_nonneg : ∀ (ops : List SysOp) (bal : String → ℚ),
    (∀ u, 0 ≤ bal u) → (∀ op ∈ ops, opAccrualNonneg op) →
    ∀ u, 0 ≤ sysRun bal ops u := by
  intro ops
  induction ops with
  | nil =>
    intro bal h0 _ u
    exact h0 u
  | cons op ops ih =>
    intro bal h0 hops u
    exact ih (sysStep bal op)
      (sysStep_nonneg bal op h0 (hops op (List.mem_cons_self op ops)))
      (fun q hq => hops q (List.mem_cons_of_mem _ hq)) u

/-- A withdrawal that would drive the balance below zero is rejected by
the handler guard (`w.Sum > user.Accrual` → 402) and changes nothing. -/
lemma withdraw_rejected_if_overdraft (b : String → ℚ) (w : Withdrawal)
    (h : b w.userID - w.sum < 0) : sysStep b (.withdrawReq w) = b := by
  have hg : b w.userID = 0 ∨ b w.userID < w.sum := Or.inr (by linarith)
  simp only [sysStep, if_pos hg]

/-! ## Helper lemmas for the admission handler -/

/-- The admission handler rejects with 422 when the body fails integer
parsing or the parsed number fails the Luhn check. -/
lemma orderAdd_422 (tbl : List Order) (u body : String)
    (h : parseInt64 body = none ∨ ∃ n, parseInt64 body = some n ∧ ValidOrder n = false) :
    orderAddHandler tbl u body = (422, tbl) := by
  rcases h with h | ⟨n, hp, hv⟩
  · simp [orderAddHandler, h]
  · simp [orderAddHandler, hp, hv]

/-- The admission handler answers 200 (and changes nothing) when the
order is already registered to the caller. -/
lemma orderAdd_200 (tbl : List Order) (u body : String) (n : Int)
    (hp : parseInt64 body = some n) (hv : ValidOrder n = true)
    (hown : (orderGet tbl body).userID = u) (hu : u ≠ "") :
    orderAddHandler tbl u body = (200, tbl) := by
  simp [orderAddHandler, hp, hv, hown, hu]

/-- The admission handler answers 409 (and changes nothing) when the
order is registered to a different user. -/
lemma orderAdd_409_other (tbl : List Order) (u body : String) (n : Int)
    (hp : parseInt64 body = some n) (hv : ValidOrder n = true)
    (hne : (orderGet tbl body).userID ≠ "") (hno : (orderGet tbl body).userID ≠ u) :
    orderAddHandler tbl u body = (409, tbl) := by
  simp [orderAddHandler, hp, hv, hne, hno]

/-- The admission handler inserts and answers 202 when the pre-read
finds no owner and no row with that number exists. -/
lemma orderAdd_202 (tbl : List Order) (u body : String) (n : Int)
    (hp : parseInt64 body = some n) (hv : ValidOrder n = true)
    (hown : (orderGet tbl body).userID = "")
    (hno : ∀ o ∈ tbl, o.number ≠ body) :
    orderAddHandler tbl u body = (202, tbl ++ [⟨u, body, "NEW", 0⟩]) := by
  have hany : tbl.any (fun o => o.number == body) = false := by
    rw [List.any_eq_false]
    intro x hx
    simp [hno x hx]
  simp [orderAddHandler, hp, hv, hown, orderAddStore, hany]

/-- The admission handler surfaces 409 when the pre-read finds no owner
but the insert itself reports a duplicate number. -/
lemma orderAdd_409_insert (tbl : List Order) (u body : String) (n : Int)
    (hp : parseInt64 body = some n) (hv : ValidOrder n = true)
    (hown : (orderGet tbl body).userID = "")
    (hdup : ∃ o ∈ tbl, o.number = body) :
    orderAddHandler tbl u body = (409, tbl) := by
  have hany : tbl.any (fun o => o.number == body) = true := by
    rw [List.any_eq_true]
    obtain ⟨o, ho, hn⟩ := hdup
    exact ⟨o, ho, by simp [hn]⟩
  simp [orderAddHandler, hp, hv, hown, orderAddStore, hany]

/-! # Claims -/

/-- C8: for every order number not present in the store, `OrderGet`
returns the empty order value with blank `user_id` and no error (the
missing row is a sentinel, not an error); for every present number it
returns that row. -/
theorem c8_orderGet_sentinel (tbl : List Order) (oid : String) :
    ((∀ o ∈ tbl, o.number ≠ oid) → orderGet tbl oid = ⟨"", "", "", 0⟩)
      ∧ (∀ o, List.Pairwise (fun a b => a.number ≠ b.number) tbl →
          o ∈ tbl → o.number = oid → orderGet tbl oid = o) :=
  ⟨orderGet_of_not_mem tbl oid,
   fun o hp ho hnum => orderGet_of_mem tbl oid o hp ho hnum⟩

/-- C8 witness: a concrete two-row table, one hit and one miss. -/
theorem c8_orderGet_sentinel_witness :
    orderGet [⟨"alice", "18", "NEW", 0⟩, ⟨"bob", "26", "NEW", 0⟩] "42" = ⟨"", "", "", 0⟩
      ∧ orderGet [⟨"alice", "18", "NEW", 0⟩, ⟨"bob", "26", "NEW", 0⟩] "26"
        = ⟨"bob", "26", "NEW", 0⟩ :=
  ⟨(c8_orderGet_sentinel [⟨"alice", "18", "NEW", 0⟩, ⟨"bob", "26", "NEW", 0⟩] "42").1
      (by decide),
   (c8_orderGet_sentinel [⟨"alice", "18", "NEW", 0⟩, ⟨"bob", "26", "NEW", 0⟩] "26").2
      ⟨"bob", "26", "NEW", 0⟩ (by decide) (by decide) (by decide)⟩

/-- C4: `GetUnprocessedOrders` sets the status of every order whose
status is NEW or PROCESSING to PROCESSING, leaves every other row
unchanged, and returns exactly the affected rows (with their updated
status); INVALID or PROCESSED orders are never claimed (never updated,
never returned). -/
theorem c4_claim_unprocessed (tbl : List Order) :
    (∀ o : Order, claimable o = true ↔ (o.status = "NEW" ∨ o.status = "PROCESSING"))
      ∧ (∀ i : ℕ, ((claimUnprocessed tbl).1)[i]?
          = (tbl[i]?).map fun o =>
              if claimable o then { o with status := "PROCESSING" } else o)
      ∧ (∀ p ∈ tbl, claimable p = true →
          { p with status := "PROCESSING" } ∈ (claimUnprocessed tbl).2)
      ∧ (∀ o ∈ (claimUnprocessed tbl).2, o.status = "PROCESSING"
          ∧ ∃ p ∈ tbl, claimable p = true ∧ o = { p with status := "PROCESSING" })
      ∧ (∀ p ∈ tbl, claimable p = false →
          p ∈ (claimUnprocessed tbl).1 ∧ p ∉ (claimUnprocessed tbl).2) := by
  refine ⟨?_, ?_, ?_, ?_, ?_⟩
  · intro o
    simp [claimable]
  · intro i
    simp [claimUnprocessed]
  · intro p hp hcl
    simp only [claimUnprocessed]
    exact List.mem_map_of_mem _ (List.mem_filter.mpr ⟨hp, hcl⟩)
  · intro o ho
    simp only [claimUnprocessed, List.mem_map, List.mem_filter] at ho
    obtain ⟨p, ⟨hmem, hcl⟩, rfl⟩ := ho
    exact ⟨rfl, p, hmem, hcl, rfl⟩
  · intro p hp hcl
    constructor
    · simp only [claimUnprocessed]
      have : (if claimable p then { p with status := "PROCESSING" } else p) = p := by
        simp [hcl]
      exact this ▸ List.mem_map_of_mem _ hp
    · intro hmem
      simp only [claimUnprocessed, List.mem_map, List.mem_filter] at hmem
      obtain ⟨q, ⟨_, hq⟩, hEq⟩ := hmem
      have : p.status = "PROCESSING" := by rw [← hEq]
      simp [claimable, this] at hcl

/-- C4 witness: a concrete table with all four statuses. -/
theorem c4_claim_unprocessed_witness :
    { (⟨"a", "1", "NEW", 0⟩ : Order) with status := "PROCESSING" }
        ∈ (claimUnprocessed
            [⟨"a", "1", "NEW", 0⟩, ⟨"b", "2", "PROCESSING", 0⟩,
             ⟨"c", "3", "INVALID", 0⟩, ⟨"d", "4", "PROCESSED", 5⟩]).2
      ∧ (⟨"c", "3", "INVALID", 0⟩ : Order)
          ∉ (claimUnprocessed
              [⟨"a", "1", "NEW", 0⟩, ⟨"b", "2", "PROCESSING", 0⟩,
               ⟨"c", "3", "INVALID", 0⟩, ⟨"d", "4", "PROCESSED", 5⟩]).2 :=
  ⟨(c4_claim_unprocessed _).2.2.1 ⟨"a", "1", "NEW", 0⟩ (by decide) (by decide),
   ((c4_claim_unprocessed _).2.2.2.2 ⟨"c", "3", "INVALID", 0⟩ (by decide) (by decide)).2⟩

/-- C9 counterexample: with the flag `-a svc:9999` and the environment
variable `RUN_ADDRESS=envhost:1111` both supplied, the resulting config
address is the flag's value, not the environment variable's. -/
theorem c9_counterexample_flag_beats_env :
    resolveAddress "svc:9999" (some "envhost:1111") "" = "svc:9999"
      ∧ resolveAddress "svc:9999" (some "envhost:1111") "" ≠ "envhost:1111" := by
  decide

/-- C9 (amended): for each of the five keys, the environment variable
is consulted only when the CLI flag still holds its default value (the
built-in default for `-a`/`-r`/`-w`, the empty string for `-d`/`-j`);
a flag set to any other value wins over the environment variable.  For
`-r` the chosen value then gets `http://` prepended when it lacks a
scheme; for `-w` the environment value must parse as an integer. -/
theorem c9_env_only_when_flag_default :
    (∀ e v, resolveAddress "localhost:8080" (some e) v = e)
      ∧ (∀ a e v, a ≠ "localhost:8080" → resolveAddress a (some e) v = a)
      ∧ (∀ e v, resolveAccrualAddress "http://localhost:8082" (some e) v
          = if hasScheme e then e else "http://" ++ e)
      ∧ (∀ r e v, r ≠ "http://localhost:8082" →
          resolveAccrualAddress r (some e) v
            = if hasScheme r then r else "http://" ++ r)
      ∧ (∀ e v k, parseInt64 e = some k → resolveWorkers 3 (some e) v = some k)
      ∧ (∀ w e v, w ≠ 3 → resolveWorkers w (some e) v = some w)
      ∧ (∀ e, resolveDSN "" (some e) = some e)
      ∧ (∀ d e, d ≠ "" → resolveDSN d (some e) = some d)
      ∧ (∀ e v, resolveJWT "" (some e) v = some e)
      ∧ (∀ j e v, j ≠ "" → resolveJWT j (some e) v = some j) := by
  refine ⟨fun e v => by simp [resolveAddress],
    fun a e v h => by simp [resolveAddress, h],
    fun e v => ?_,
    fun r e v h => ?_,
    fun e v k hp => by simp [resolveWorkers, hp],
    fun w e v h => by simp [resolveWorkers, h],
    fun e => by simp [resolveDSN],
    fun d e h => by simp [resolveDSN, h],
    fun e v => by simp [resolveJWT],
    fun j e v h => by simp [resolveJWT, h]⟩
  · by_cases hs : hasScheme e <;> simp [resolveAccrualAddress, hs]
  · by_cases hs : hasScheme r <;> simp [resolveAccrualAddress, h, hs]

/-- C9 witness: the amended resolution at concrete values. -/
theorem c9_env_only_when_flag_default_witness :
    resolveAddress "localhost:8080" (some "envhost:1111") "" = "envhost:1111"
      ∧ resolveDSN "flagdsn" (some "envdsn") = some "flagdsn"
      ∧ resolveWorkers 3 (some "7") 0 = some 7
      ∧ resolveAccrualAddress "acc:8082" (some "envacc") "" = "http://acc:8082" :=
  ⟨(c9_env_only_when_flag_default).1 "envhost:1111" "",
   (c9_env_only_when_flag_default).2.2.2.2.2.2.2.1 "flagdsn" "envdsn" (by decide),
   (c9_env_only_when_flag_default).2.2.2.2.1 "7" 0 7 (by decide),
   by
    have h := (c9_env_only_when_flag_default).2.2.2.1 "acc:8082" "envacc" "" (by decide)
    rwa [if_neg (by decide)] at h⟩

/-- C2: `ValidOrder` is a pure function that, on every non-negative
integer, agrees with the reference Luhn check (double every second
digit from the right, digit-sum a doubled digit exceeding 9, accept iff
the total is divisible by 10); in particular
`ValidOrder 2377225624 = true` and `ValidOrder 2377225625 = false`. -/
theorem c2_luhn_validator_matches_spec :
    (∀ n : ℕ, ValidOrder (n : Int) = luhnSpecValid n)
      ∧ ValidOrder 2377225624 = true ∧ ValidOrder 2377225625 = false :=
  ⟨ValidOrder_eq_spec, by decide, by decide⟩

/-- C10: `-120` is a negative `int64` input on which `ValidOrder`
returns `true` (the checksum loop runs zero times and `-120 % 10 = 0`),
the body `"-120"` parses under `strconv.ParseInt`, and neither the
order-admission handler nor the withdrawal handler rejects it with 422
(admission accepts it with 202, withdrawal proceeds past validation). -/
theorem c10_negative_input_passes_validation :
    (-120 : Int) < 0
      ∧ ValidOrder (-120) = true
      ∧ parseInt64 "-120" = some (-120)
      ∧ (orderAddHandler [] "alice" "-120").1 = 202
      ∧ accrualWithdrawHandlerStatus 10 "-120" 5 = 200 := by
  decide

/-- C5: the ledger withdrawal transaction is atomic: on any statement
or commit error it reports failure and leaves the state exactly as it
was (no balance change, no withdrawal row), and on success it both
debits `w.sum` from `w.userID`'s balance and appends the withdrawal
row; it succeeds exactly when no statement fails. -/
theorem c5_withdraw_tx_atomic (st : LedgerState) (w : Withdrawal) (e1 e2 ec : Bool) :
    ((accrualWithdrawTx st w e1 e2 ec).1 = true → (accrualWithdrawTx st w e1 e2 ec).2 = st)
    ∧ ((accrualWithdrawTx st w e1 e2 ec).1 = false →
        (accrualWithdrawTx st w e1 e2 ec).2.balances
            = updBal st.balances w.userID (st.balances w.userID - w.sum)
          ∧ (accrualWithdrawTx st w e1 e2 ec).2.withdrawals = st.withdrawals ++ [w])
    ∧ ((accrualWithdrawTx st w e1 e2 ec).1 = false
        ↔ e1 = false ∧ e2 = false ∧ ec = false) := by
  rcases e1 <;> rcases e2 <;> rcases ec <;> simp [accrualWithdrawTx]

/-- C5 witness: a successful and a rolled-back run on concrete data. -/
theorem c5_withdraw_tx_atomic_witness :
    (accrualWithdrawTx ⟨fun _ => 7, []⟩ ⟨"u", "18", 4⟩ false true false).2
        = (⟨fun _ => 7, []⟩ : LedgerState)
      ∧ (accrualWithdrawTx ⟨fun _ => 7, []⟩ ⟨"u", "18", 4⟩ false false false).2.withdrawals
        = [⟨"u", "18", 4⟩] :=
  ⟨(c5_withdraw_tx_atomic ⟨fun _ => 7, []⟩ ⟨"u", "18", 4⟩ false true false).1 (by decide),
   ((c5_withdraw_tx_atomic ⟨fun _ => 7, []⟩ ⟨"u", "18", 4⟩ false false false).2.1
      (by decide)).2⟩

/-- C6 counterexample: for an order with accrual `-1`, `OrderUpdate`
does call `UserAddAccrual` although the accrual is not positive — the
source guard is `order.Accrual != 0`, not `order.Accrual > 0`. -/
theorem c6_counterexample_negative_accrual :
    LedgerCall.userAddAccrual ⟨"u1", "79927398713", "PROCESSED", -1⟩
        ∈ (orderUpdateCalls ⟨"u1", "79927398713", "PROCESSED", -1⟩ false).1
      ∧ ¬ (0 < (⟨"u1", "79927398713", "PROCESSED", -1⟩ : Order).accrual) := by
  decide

/-- C6 (amended): `OrderUpdate` calls `Ledger.UpdateOrder` first, stops
there when that call fails, and calls `UserAddAccrual` if and only if
`order.accrual ≠ 0` (for the non-negative accruals of the data model
this coincides with `> 0`, but a negative accrual is also applied). -/
theorem c6_update_then_conditional_accrual (o : Order) :
    (orderUpdateCalls o false).1.head? = some (.updateOrder o)
      ∧ (orderUpdateCalls o true).1 = [.updateOrder o]
      ∧ (orderUpdateCalls o true).2 = true
      ∧ (LedgerCall.userAddAccrual o ∈ (orderUpdateCalls o false).1 ↔ o.accrual ≠ 0) := by
  by_cases h : o.accrual = 0 <;> simp [orderUpdateCalls, h]

/-- C6 witness: the amended behaviour at two concrete orders. -/
theorem c6_update_then_conditional_accrual_witness :
    LedgerCall.userAddAccrual ⟨"u", "18", "PROCESSED", 5⟩
        ∈ (orderUpdateCalls ⟨"u", "18", "PROCESSED", 5⟩ false).1
      ∧ (orderUpdateCalls ⟨"u", "18", "PROCESSED", 0⟩ false).1
        = [.updateOrder ⟨"u", "18", "PROCESSED", 0⟩] :=
  ⟨((c6_update_then_conditional_accrual ⟨"u", "18", "PROCESSED", 5⟩).2.2.2).mpr (by decide),
   by decide⟩

/-- C7 counterexample: on a 429 whose `Retry-After` header is present
but not an integer, the worker abandons the order (`break`) instead of
backing off for the configured default and retrying. -/
theorem c7_counterexample_unparseable_header :
    handle429 "soon" 60 = [WorkerAct.abandonOrder]
      ∧ handle429 "soon" 60
          ≠ [.setFlag, .sleepSec 60, .clearFlag, .retryOrder] := by
  decide

/-- C7 (amended): on a 429, an absent `Retry-After` header makes the
worker set the back-pressure flag, sleep the configured default, clear
the flag and retry the same order; a parseable header makes it do the
same with the header's value in seconds; an unparseable header makes it
abandon the order without sleeping or touching the flag. -/
theorem c7_retry_after_handling (h : String) (d k : Int) :
    handle429 "" d = [.setFlag, .sleepSec d, .clearFlag, .retryOrder]
      ∧ (h ≠ "" → parseInt64 h = some k →
          handle429 h d = [.setFlag, .sleepSec k, .clearFlag, .retryOrder])
      ∧ (h ≠ "" → parseInt64 h = none → handle429 h d = [.abandonOrder]) := by
  refine ⟨by simp [handle429], ?_, ?_⟩ <;> intro hne hp <;> simp [handle429, hne, hp]

/-- C7 witness: the amended behaviour on concrete headers. -/
theorem c7_retry_after_handling_witness :
    handle429 "" 60 = [.setFlag, .sleepSec 60, .clearFlag, .retryOrder]
      ∧ handle429 "5" 60 = [.setFlag, .sleepSec 5, .clearFlag, .retryOrder]
      ∧ handle429 "x" 60 = [.abandonOrder] :=
  ⟨(c7_retry_after_handling "5" 60 5).1,
   (c7_retry_after_handling "5" 60 5).2.1 (by decide) (by decide),
   (c7_retry_after_handling "x" 60 5).2.2 (by decide) (by decide)⟩


/-- C1 counterexample: the unconditional invariant is false of the
code.  `OrderUpdate`'s guard is `order.Accrual != 0` (service.go:269),
so a negative accrual result from the Accrual service is applied to the
balance: from balance 0, applying an accrual of `-5` commits a balance
of `-5 < 0` — an accrual application can make the balance negative. -/
theorem c1_counterexample_negative_accrual_applied :
    sysRun (fun _ => 0) [.accrualApply ⟨"a", "18", "PROCESSED", -5⟩] "a" = -5
      ∧ ¬ (0 ≤ sysRun (fun _ => 0) [.accrualApply ⟨"a", "18", "PROCESSED", -5⟩] "a") := by
  constructor <;> norm_num [sysRun, sysStep, updBal]

/-- C1 (amended): starting from non-negative balances, every committed
operation of the system keeps every user's balance `≥ 0`, provided
every applied accrual award is non-negative (the data model's
constraint on `order.accrual`, spec §3 — which the code does not
enforce, as the counterexample shows); in particular a withdrawal debit
that would drive the balance below zero is rejected and changes
nothing.  Order admission and withdrawals alone can never make a
balance negative; only a negative accrual application can. -/
theorem c1_balances_stay_nonneg (ops : List SysOp) (bal : String → ℚ)
    (h0 : ∀ u, 0 ≤ bal u) (hops : ∀ op ∈ ops, opAccrualNonneg op) :
    (∀ u, 0 ≤ sysRun bal ops u)
      ∧ (∀ (b : String → ℚ) (w : Withdrawal), b w.userID - w.sum < 0 →
          sysStep b (.withdrawReq w) = b) :=
  ⟨sysRun_nonneg ops bal h0 hops,
   fun b w h => withdraw_rejected_if_overdraft b w h⟩

/-- C1 witness: a concrete run (admission, accrual of 5, withdrawal of
3) ends with a non-negative balance, and an overdraft attempt from
balance 1 is a no-op. -/
theorem c1_balances_stay_nonneg_witness :
    0 ≤ sysRun (fun _ => 0)
        [.orderAdmit "a" "18", .accrualApply ⟨"a", "18", "PROCESSED", 5⟩,
          .withdrawReq ⟨"a", "26", 3⟩] "a"
      ∧ sysStep (fun _ => 1) (.withdrawReq ⟨"a", "26", 5⟩) = (fun _ => (1 : ℚ)) := by
  have h := c1_balances_stay_nonneg
      [.orderAdmit "a" "18", .accrualApply ⟨"a", "18", "PROCESSED", 5⟩,
        .withdrawReq ⟨"a", "26", 3⟩]
      (fun _ => 0) (fun u => le_refl 0)
      (by
        intro op hop
        simp only [List.mem_cons, List.not_mem_nil, or_false] at hop
        rcases hop with rfl | rfl | rfl <;> norm_num [opAccrualNonneg])
  exact ⟨h.1 "a", h.2 (fun _ => 1) ⟨"a", "26", 5⟩ (by norm_num)⟩

/-- C3: the admission handler follows the decision table in order —
parse or Luhn failure gives 422; an order owned by the caller gives 200
with no change; an order owned by another user gives 409; otherwise the
order is inserted with 202, and a duplicate reported by the insert
itself surfaces as 409.  Consequently the same valid number submitted
twice by one user yields 202 then 200, and by two users 202 then 409. -/
theorem c3_admission_decision_table :
    (∀ (tbl : List Order) (u body : String),
        (parseInt64 body = none ∨ ∃ n, parseInt64 body = some n ∧ ValidOrder n = false) →
        orderAddHandler tbl u body = (422, tbl))
      ∧ (∀ (tbl : List Order) (u body : String) (n : Int),
          parseInt64 body = some n → ValidOrder n = true →
          (orderGet tbl body).userID = u → u ≠ "" →
          orderAddHandler tbl u body = (200, tbl))
      ∧ (∀ (tbl : List Order) (u body : String) (n : Int),
          parseInt64 body = some n → ValidOrder n = true →
          (orderGet tbl body).userID ≠ "" → (orderGet tbl body).userID ≠ u →
          orderAddHandler tbl u body = (409, tbl))
      ∧ (∀ (tbl : List Order) (u body : String) (n : Int),
          parseInt64 body = some n → ValidOrder n = true →
          (orderGet tbl body).userID = "" → (∀ o ∈ tbl, o.number ≠ body) →
          orderAddHandler tbl u body = (202, tbl ++ [⟨u, body, "NEW", 0⟩]))
      ∧ (∀ (tbl : List Order) (u body : String) (n : Int),
          parseInt64 body = some n → ValidOrder n = true →
          (orderGet tbl body).userID = "" → (∃ o ∈ tbl, o.number = body) →
          orderAddHandler tbl u body = (409, tbl))
      ∧ (∀ (tbl : List Order) (u body : String) (n : Int),
          parseInt64 body = some n → ValidOrder n = true → u ≠ "" →
          (∀ o ∈ tbl, o.number ≠ body) →
          (orderAddHandler tbl u body).1 = 202
            ∧ (orderAddHandler (orderAddHandler tbl u body).2 u body).1 = 200)
      ∧ (∀ (tbl : List Order) (u1 u2 body : String) (n : Int),
          parseInt64 body = some n → ValidOrder n = true → u1 ≠ "" → u2 ≠ u1 →
          (∀ o ∈ tbl, o.number ≠ body) →
          (orderAddHandler tbl u1 body).1 = 202
            ∧ (orderAddHandler (orderAddHandler tbl u1 body).2 u2 body).1 = 409) := by
  have hsc : ∀ (tbl : List Order) (u body : String) (n : Int),
      parseInt64 body = some n → ValidOrder n = true →
      (∀ o ∈ tbl, o.number ≠ body) →
      orderAddHandler tbl u body = (202, tbl ++ [⟨u, body, "NEW", 0⟩]) := by
    intro tbl u body n hp hv hno
    have hown : (orderGet tbl body).userID = "" := by
      rw [orderGet_of_not_mem tbl body hno]
    exact orderAdd_202 tbl u body n hp hv hown hno
  refine ⟨orderAdd_422, fun tbl u body n hp hv hown hu => orderAdd_200 tbl u body n hp hv hown hu,
    fun tbl u body n hp hv hne hno => orderAdd_409_other tbl u body n hp hv hne hno,
    fun tbl u body n hp hv hown hno => orderAdd_202 tbl u body n hp hv hown hno,
    fun tbl u body n hp hv hown hdup => orderAdd_409_insert tbl u body n hp hv hown hdup,
    ?_, ?_⟩
  · intro tbl u body n hp hv hu hno
    have h1 := hsc tbl u body n hp hv hno
    have hget := orderGet_append_inserted tbl u body hno
    refine ⟨by rw [h1], ?_⟩
    rw [h1]
    have h2 : orderAddHandler (tbl ++ [⟨u, body, "NEW", 0⟩]) u body
        = (200, tbl ++ [⟨u, body, "NEW", 0⟩]) :=
      orderAdd_200 _ u body n hp hv (by rw [hget]) hu
    rw [h2]
  · intro tbl u1 u2 body n hp hv hu1 hne hno
    have h1 := hsc tbl u1 body n hp hv hno
    have hget := orderGet_append_inserted tbl u1 body hno
    refine ⟨by rw [h1], ?_⟩
    rw [h1]
    have h2 : orderAddHandler (tbl ++ [⟨u1, body, "NEW", 0⟩]) u2 body
        = (409, tbl ++ [⟨u1, body, "NEW", 0⟩]) :=
      orderAdd_409_other _ u2 body n hp hv
        (by rw [hget]; exact hu1) (by rw [hget]; exact fun h => hne h.symm)
    rw [h2]

/-- C3 witness: the decision table exercised on the valid number
2377225624 with users alice and bob, from the empty table. -/
theorem c3_admission_decision_table_witness :
    (orderAddHandler [] "alice" "2377225624").1 = 202
      ∧ (orderAddHandler (orderAddHandler [] "alice" "2377225624").2 "alice"
          "2377225624").1 = 200
      ∧ (orderAddHandler (orderAddHandler [] "alice" "2377225624").2 "bob"
          "2377225624").1 = 409
      ∧ orderAddHandler [] "alice" "2377225625" = (422, []) := by
  have hsame := (c3_admission_decision_table).2.2.2.2.2.1 [] "alice" "2377225624"
      2377225624 (by decide) (by decide) (by decide) (by intro o ho; cases ho)
  have hother := (c3_admission_decision_table).2.2.2.2.2.2 [] "alice" "bob" "2377225624"
      2377225624 (by decide) (by decide) (by decide) (by decide) (by intro o ho; cases ho)
  have h422 := (c3_admission_decision_table).1 [] "alice" "2377225625"
      (Or.inr ⟨2377225625, by decide, by decide⟩)
  exact ⟨hsame.1, hsame.2, hother.2, h422⟩

end Gofermart
